import Mathlib

/-!
Shallow embedding of the core of the recipe-finder application (src/app.js):
the search aggregation pipeline (`searchRecipes`, `fetchRecipesByIngredient`,
`deduplicateRecipes`, `getMatchingIngredients`), the filter engine
(`applyFilters`), the countdown timer (`setTimer`, `startTimer`, `pauseTimer`,
`resetTimer`, `tickTimer`), the ingredient set (`addIngredient`) and the
favorites registry (`toggleFavorite`).

Asynchrony is embedded by passing the environment explicitly: the catalog is a
function from ingredient to HTTP response, `Math.random` is a stream of
rationals consumed one draw per call, and `setInterval`/`clearInterval` are
modeled by a pool of scheduled interval identifiers carried in the timer state.
-/

namespace RecipeFinder

/-- A raw recipe summary, one element of the catalog's `meals` array.
`strCategory`/`strArea` are `Option` because the JSON fields may be absent or
`null`; a present-but-empty string is `some ""` (falsy in JS, like `none`). -/
structure Recipe where
  idMeal : String
  strMeal : String
  strCategory : Option String
  strArea : Option String
  deriving DecidableEq

/-- A recipe as stored in `state.allRecipes`: the spread `{...recipe,
matchingIngredients}` of src/app.js:465-468. -/
structure AnnotatedRecipe where
  raw : Recipe
  matchingIngredients : List String
  deriving DecidableEq

/-- JS truthiness of an optional string field: absent/`null` and `""` are falsy. -/
def truthy : Option String → Bool
  | none => false
  | some s => s ≠ ""

/-- Error raised out of `fetchRecipesByIngredient` (a rejected promise). -/
inductive FetchError where
  | transport
  | httpStatus
  | malformedPayload
  deriving DecidableEq

/-- An HTTP response for a catalog call. `body` is the result of
`response.json()`: `none` means the body is not valid JSON (the promise
rejects); `some none` means it parsed to an object whose `meals` field is
absent or `null`; `some (some l)` means `meals` is the array `l`. -/
structure HttpResponse where
  ok : Bool
  body : Option (Option (List Recipe))
  deriving DecidableEq

/-- Model of `fetchRecipesByIngredient` (src/app.js:486-497). The argument is the
outcome of `fetch`: `none` is a transport failure (the fetch promise rejects).
A non-`ok` status throws; an unparseable body throws via `response.json()`;
otherwise the function returns `data.meals || []`, so an absent/`null` `meals`
field yields the empty list. -/
def fetchRecipesByIngredient (resp : Option HttpResponse) :
    Except FetchError (List Recipe) :=
  match resp with
  | none => .error .transport
  | some r =>
    if !r.ok then .error .httpStatus
    else
      match r.body with
      | none => .error .malformedPayload
      | some none => .ok []
      | some (some meals) => .ok meals

/-- Model of `Promise.all(searchPromises)` over the per-ingredient fetches
(src/app.js:456-460): resolves with the list of per-ingredient results iff
every fetch resolves, and rejects as soon as any single fetch rejects. -/
def promiseAll (env : String → Option HttpResponse) :
    List String → Except FetchError (List (List Recipe))
  | [] => .ok []
  | i :: rest =>
    match fetchRecipesByIngredient (env i), promiseAll env rest with
    | .error e, _ => .error e
    | .ok _, .error e => .error e
    | .ok l, .ok ls => .ok (l :: ls)

/-- The filter loop inside `deduplicateRecipes`, with the `seen` set of
identifiers made explicit. -/
def dedupeAux (seen : List String) : List Recipe → List Recipe
  | [] => []
  | r :: rest =>
    if r.idMeal ∈ seen then dedupeAux seen rest
    else r :: dedupeAux (r.idMeal :: seen) rest

/-- Model of `deduplicateRecipes` (src/app.js:502-509): keep the first occurrence of
each `idMeal`, in order. -/
def deduplicateRecipes (recipes : List Recipe) : List Recipe :=
  dedupeAux [] recipes

/-- Model of `getMatchingIngredients` (src/app.js:514-517):
`searchIngredients.slice(0, Math.min(searchIngredients.length, 3))`.
The recipe argument of the JS function is unused there as well. -/
def getMatchingIngredients (searchIngredients : List String) : List String :=
  searchIngredients.take (min searchIngredients.length 3)

/-- The `state.currentFilter` record; the empty string means "no criterion"
(the JS code tests each field for truthiness). -/
structure FilterCriteria where
  time : String
  category : String
  area : String
  deriving DecidableEq

/-- The keep-probability of the simulated time filter (src/app.js:550-551). -/
def keepRate (time : String) : ℚ :=
  if time = "quick" then 7/10 else if time = "medium" then 8/10 else 6/10

/-- Model of `filtered.filter(() => Math.random() > (1 - ratio))`
(src/app.js:552):
one `Math.random()` draw per element, taken from the stream `rand` starting at
index `k`. -/
def randomFilter (rate : ℚ) (rand : Nat → ℚ) :
    Nat → List AnnotatedRecipe → List AnnotatedRecipe
  | _, [] => []
  | k, r :: rest =>
    if rand k > 1 - rate then r :: randomFilter rate rand (k + 1) rest
    else randomFilter rate rand (k + 1) rest

/-- The category test of src/app.js:534-539:
`recipe.strCategory && recipe.strCategory.toLowerCase() === category.toLowerCase()`. -/
def categoryMatches (category : String) (r : AnnotatedRecipe) : Bool :=
  truthy r.raw.strCategory &&
    (r.raw.strCategory.getD "").toLower == category.toLower

/-- The area test of src/app.js:541-546. -/
def areaMatches (area : String) (r : AnnotatedRecipe) : Bool :=
  truthy r.raw.strArea && (r.raw.strArea.getD "").toLower == area.toLower

/-- Model of `applyFilters` (src/app.js:531-557) as a function of the recipe list, the
current filter and the `Math.random` stream; returns the new
`state.filteredRecipes`. -/
def applyFilters (allRecipes : List AnnotatedRecipe) (f : FilterCriteria)
    (rand : Nat → ℚ) : List AnnotatedRecipe :=
  let filtered := allRecipes
  let filtered :=
    if f.category ≠ "" then filtered.filter (categoryMatches f.category)
    else filtered
  let filtered :=
    if f.area ≠ "" then filtered.filter (areaMatches f.area) else filtered
  if f.time ≠ "" then randomFilter (keepRate f.time) rand 0 filtered
  else filtered

/-- The slice of `this.state` read and written by `searchRecipes`. -/
structure SearchState where
  selectedIngredients : List String
  allRecipes : List AnnotatedRecipe
  filteredRecipes : List AnnotatedRecipe
  isLoading : Bool
  error : Option String
  currentFilter : FilterCriteria
  deriving DecidableEq

/-- Model of `searchRecipes` (src/app.js:444-481) as a state transformer. `env` gives
each ingredient's catalog response and `rand` the `Math.random` stream used by
the `applyFilters()` call on success. On any fetch rejection the `catch` block
runs: it only sets the error message and clears `isLoading`, leaving
`allRecipes` and `filteredRecipes` untouched. -/
def searchRecipes (env : String → Option HttpResponse) (rand : Nat → ℚ)
    (st : SearchState) : SearchState :=
  if st.selectedIngredients = [] then st
  else
    let st := { st with isLoading := true, error := none }
    let ingredients := st.selectedIngredients
    match promiseAll env ingredients with
    | .error _ =>
      { st with
        error := some "Failed to search recipes. Please try again.",
        isLoading := false }
    | .ok results =>
      let allRecipes := results.flatten
      let uniqueRecipes := deduplicateRecipes allRecipes
      let recipesWithMatches := uniqueRecipes.map fun r =>
        { raw := r, matchingIngredients := getMatchingIngredients ingredients }
      let st := { st with allRecipes := recipesWithMatches, isLoading := false }
      { st with
        filteredRecipes := applyFilters st.allRecipes st.currentFilter rand }

/-- Embedding of `state.timerState` together with the scheduler facts the timer code
manipulates: `active` is the pool of scheduled-and-uncancelled interval
identifiers (`setInterval` adds a fresh one, `clearInterval` removes the one
named by the stored handle), and `finishedCount` counts the "Timer finished"
toasts shown. `isPaused` exists in the JS state object but is never written
after initialization. -/
structure TimerState where
  isRunning : Bool
  isPaused : Bool
  timeRemaining : Int
  interval : Option Nat
  active : List Nat
  nextId : Nat
  finishedCount : Nat
  deriving DecidableEq

/-- The timer state constructed in the `PremiumRecipeFinderApp` constructor
(src/app.js:22-27). -/
def timerInit : TimerState :=
  { isRunning := false, isPaused := false, timeRemaining := 0,
    interval := none, active := [], nextId := 1, finishedCount := 0 }

/-- Model of `setTimer` (src/app.js:810-813). -/
def setTimer (seconds : Int) (s : TimerState) : TimerState :=
  { s with timeRemaining := seconds }

/-- Model of `startTimer` (src/app.js:815-820): if no time remains, seed 300 seconds;
then unconditionally schedule a fresh interval and overwrite the stored handle
with it. Nothing guards against an interval already being scheduled. -/
def startTimer (s : TimerState) : TimerState :=
  let s := if s.timeRemaining ≤ 0 then setTimer 300 s else s
  { s with
    isRunning := true, interval := some s.nextId,
    active := s.nextId :: s.active, nextId := s.nextId + 1 }

/-- Model of `pauseTimer` (src/app.js:822-828): `clearInterval` cancels exactly the
interval named by the stored handle, if any; then the handle is nulled. -/
def pauseTimer (s : TimerState) : TimerState :=
  let s :=
    match s.interval with
    | some h => { s with active := s.active.erase h }
    | none => s
  { s with isRunning := false, interval := none }

/-- Model of `resetTimer` (src/app.js:830-834). -/
def resetTimer (s : TimerState) : TimerState :=
  { pauseTimer s with timeRemaining := 0 }

/-- Model of `tickTimer` (src/app.js:836-844): one invocation of the interval callback.
While time remains it only decrements; once `timeRemaining` is 0 it pauses
(cancelling the stored interval) and shows the "Timer finished" toast. -/
def tickTimer (s : TimerState) : TimerState :=
  if s.timeRemaining > 0 then { s with timeRemaining := s.timeRemaining - 1 }
  else { pauseTimer s with finishedCount := s.finishedCount + 1 }

/-- User/scheduler events driving the timer. -/
inductive TimerOp where
  | setDuration (seconds : Int)
  | start
  | pause
  | reset
  | tick
  deriving DecidableEq

/-- One timer event. -/
def timerStep (s : TimerState) : TimerOp → TimerState
  | .setDuration n => setTimer n s
  | .start => startTimer s
  | .pause => pauseTimer s
  | .reset => resetTimer s
  | .tick => tickTimer s

/-- Run a sequence of timer events from the initial state. -/
def timerRun (ops : List TimerOp) : TimerState :=
  ops.foldl timerStep timerInit

/-- A JS string, as its sequence of UTF-16 code units. -/
abbrev JSString := List Nat

/-- The code units `String.prototype.trim` removes at the ends (the ASCII
whitespace and line-terminator code points). -/
def isJsSpace (c : Nat) : Bool :=
  decide (c = 9 ∨ c = 10 ∨ c = 11 ∨ c = 12 ∨ c = 13 ∨ c = 32)

/-- `toLowerCase` on one code unit (ASCII letter range). -/
def toLowerChar (c : Nat) : Nat :=
  if 65 ≤ c ∧ c ≤ 90 then c + 32 else c

/-- Model of `String.prototype.toLowerCase`. -/
def jsToLowerCase (s : JSString) : JSString :=
  s.map toLowerChar

/-- Model of `String.prototype.trim`: drop leading whitespace, then drop trailing
whitespace (via reversal). -/
def jsTrim (s : JSString) : JSString :=
  ((s.dropWhile isJsSpace).reverse.dropWhile isJsSpace).reverse

/-- Model of `ingredient.toLowerCase().trim()` (src/app.js:362). -/
def normalizeIngredient (s : JSString) : JSString :=
  jsTrim (jsToLowerCase s)

/-- Model of `addIngredient` (src/app.js:361-369), restricted to the
`state.selectedIngredients` JS `Set`, represented by its insertion-ordered
member list. A falsy (empty) normalized token or an already-present one skips
the guarded block entirely. -/
def addIngredient (sel : List JSString) (ingredient : JSString) :
    List JSString :=
  let normalizedIngredient := normalizeIngredient ingredient
  if normalizedIngredient ≠ [] ∧ normalizedIngredient ∉ sel then
    sel ++ [normalizedIngredient]
  else sel

/-- The IngredientSet invariant: members are pairwise distinct and each is
already in normalized form (so in particular the normalized values are
pairwise distinct). -/
def IngredientSetInv (sel : List JSString) : Prop :=
  sel.Nodup ∧ ∀ m ∈ sel, normalizeIngredient m = m

/-- Model of `toggleFavorite` (src/app.js:753-771) acting on the `state.favorites` JS
`Set` of identifiers (the code only ever calls `has`/`add`/`delete` on it, so
a finite set models it exactly); `cur` is `this.currentRecipe`, `null` when no
detail view is open. -/
def toggleFavorite (cur : Option Recipe) (favorites : Finset String) :
    Finset String :=
  match cur with
  | none => favorites
  | some recipe =>
    if recipe.idMeal ∈ favorites then favorites.erase recipe.idMeal
    else insert recipe.idMeal favorites

/-- Sample catalog record ("recipe A"). -/
def chickenRecipe : Recipe :=
  { idMeal := "52940", strMeal := "Brown Stew Chicken",
    strCategory := some "Chicken", strArea := some "Jamaican" }

/-- Sample catalog record ("recipe B"). -/
def riceRecipe : Recipe :=
  { idMeal := "52772", strMeal := "Teriyaki Chicken Casserole",
    strCategory := some "Chicken", strArea := some "Japanese" }

/-- A state with two selected ingredients and no prior results. -/
def demoState : SearchState :=
  { selectedIngredients := ["chicken", "rice"], allRecipes := [],
    filteredRecipes := [], isLoading := false, error := none,
    currentFilter := { time := "", category := "", area := "" } }

/-- Catalog in which "chicken" returns recipe A and every other ingredient
returns recipes A and B. -/
def okEnv : String → Option HttpResponse := fun i =>
  if i = "chicken" then some { ok := true, body := some (some [chickenRecipe]) }
  else some { ok := true, body := some (some [chickenRecipe, riceRecipe]) }

/-- Catalog in which "chicken" succeeds but every other fetch suffers a
transport failure. -/
def failEnv : String → Option HttpResponse := fun i =>
  if i = "chicken" then some { ok := true, body := some (some [chickenRecipe]) }
  else none

/-- A constant `Math.random` stream. -/
def zeroRand : Nat → ℚ := fun _ => 0

/-- Another constant `Math.random` stream. -/
def oneRand : Nat → ℚ := fun _ => 1

/-- The code units of `" Chicken "`. -/
def sampleToken : JSString := [32, 67, 104, 105, 99, 107, 101, 110, 32]

/-!
Theorems. Claim theorems are named after the behavior they establish; each is
preceded by a doc comment naming the claim.
-/

/-- Claim C6: applying the filter engine with all three criteria empty
(category, area and time bucket all absent, i.e. the empty string, which is
falsy in JS) returns the input sequence unchanged - same elements, same
order. -/
theorem applyFilters_identity (recipes : List AnnotatedRecipe)
    (rand : Nat → ℚ) :
    applyFilters recipes { time := "", category := "", area := "" } rand =
      recipes := rfl

/-- Claim C7: with the time bucket absent, `applyFilters` never consults the
`Math.random` stream, so two runs on identical input and identical criteria
agree no matter how the streams of the two runs differ - the category/area
filtering path is deterministic. -/
theorem applyFilters_deterministic (recipes : List AnnotatedRecipe)
    (f : FilterCriteria) (hf : f.time = "") (r1 r2 : Nat → ℚ) :
    applyFilters recipes f r1 = applyFilters recipes f r2 := by
  simp [applyFilters, hf]

/-- Witness for `applyFilters_deterministic` at a concrete input. -/
theorem applyFilters_deterministic_witness :
    applyFilters [] { time := "", category := "Chicken", area := "" }
        zeroRand =
      applyFilters [] { time := "", category := "Chicken", area := "" }
        oneRand :=
  applyFilters_deterministic [] { time := "", category := "Chicken", area := "" }
    rfl zeroRand oneRand

/-- Claim C10: a toggle with no recipe displayed leaves the favorites set
unchanged; with a displayed recipe, one toggle flips exactly the membership of
that recipe's identifier (every other identifier's membership is preserved),
and two toggles restore the original set. -/
theorem toggleFavorite_membership (r : Recipe) (fav : Finset String)
    (x : String) (hx : x ≠ r.idMeal) :
    (∀ f : Finset String, toggleFavorite none f = f) ∧
    toggleFavorite (some r) (toggleFavorite (some r) fav) = fav ∧
    (x ∈ toggleFavorite (some r) fav ↔ x ∈ fav) ∧
    (r.idMeal ∈ toggleFavorite (some r) fav ↔ r.idMeal ∉ fav) := by
  refine ⟨fun f => rfl, ?_, ?_, ?_⟩
  · by_cases h : r.idMeal ∈ fav
    · simp only [toggleFavorite, if_pos h]
      rw [if_neg (Finset.not_mem_erase _ _), Finset.insert_erase h]
    · simp only [toggleFavorite, if_neg h]
      rw [if_pos (Finset.mem_insert_self _ _), Finset.erase_insert h]
  · by_cases h : r.idMeal ∈ fav
    · simp only [toggleFavorite, if_pos h]
      simp [Finset.mem_erase, hx]
    · simp only [toggleFavorite, if_neg h]
      simp [Finset.mem_insert, hx]
  · by_cases h : r.idMeal ∈ fav
    · simp [toggleFavorite, if_pos h, h]
    · simp [toggleFavorite, if_neg h, h]

/-- Witness for `toggleFavorite_membership` at a concrete input. -/
theorem toggleFavorite_membership_witness :
    toggleFavorite (some chickenRecipe)
        (toggleFavorite (some chickenRecipe) {"52772"}) = {"52772"} :=
  (toggleFavorite_membership chickenRecipe {"52772"} "x" (by decide)).2.1

/-- Claim C8, counterexample: a successful (`ok`) response whose parsed body
has no `meals` field at all is claimed to fail with a FetchError, but
`data.meals || []` makes the call return zero results instead - it is not an
error. -/
theorem fetch_missing_field_not_error :
    fetchRecipesByIngredient (some { ok := true, body := some none }) =
      Except.ok [] ∧
    ∀ e, fetchRecipesByIngredient (some { ok := true, body := some none }) ≠
      Except.error e := by
  refine ⟨rfl, fun e h => ?_⟩
  rw [show fetchRecipesByIngredient (some { ok := true, body := some none }) =
    Except.ok [] from rfl] at h
  cases h

/-- Claim C8 as amended: the fetch-by-ingredient call fails with a FetchError
on transport failure, non-success HTTP status, or an unparseable (malformed)
body; when the top-level `meals` field is missing, `null`, or an empty array,
the call returns zero results rather than an error, and a present array is
returned as-is. -/
theorem fetch_error_conditions (r : HttpResponse) :
    fetchRecipesByIngredient none = Except.error FetchError.transport ∧
    (r.ok = false →
      fetchRecipesByIngredient (some r) = Except.error FetchError.httpStatus) ∧
    (r.ok = true → r.body = none →
      fetchRecipesByIngredient (some r) =
        Except.error FetchError.malformedPayload) ∧
    (r.ok = true → r.body = some none →
      fetchRecipesByIngredient (some r) = Except.ok []) ∧
    (r.ok = true → ∀ meals, r.body = some (some meals) →
      fetchRecipesByIngredient (some r) = Except.ok meals) := by
  refine ⟨rfl, fun hok => ?_, fun hok hb => ?_, fun hok hb => ?_,
    fun hok meals hb => ?_⟩
  · simp [fetchRecipesByIngredient, hok]
  · simp [fetchRecipesByIngredient, hok, hb]
  · simp [fetchRecipesByIngredient, hok, hb]
  · simp [fetchRecipesByIngredient, hok, hb]

/-- Witness for `fetch_error_conditions` at a concrete input. -/
theorem fetch_error_conditions_witness :
    fetchRecipesByIngredient (some { ok := false, body := none }) =
      Except.error FetchError.httpStatus :=
  (fetch_error_conditions { ok := false, body := none }).2.1 rfl

/-- Claim C4 evaluated at its failing input: two consecutive `startTimer`
calls (the Start button pressed twice) leave two scheduled, uncancelled
intervals, and a subsequent `pauseTimer` can only cancel the second one - the
first interval's handle was overwritten and it keeps ticking forever. -/
theorem startTimer_double_schedule :
    (timerRun [TimerOp.start, TimerOp.start]).active = [2, 1] ∧
    (timerRun [TimerOp.start, TimerOp.start, TimerOp.pause]).active = [1] := by
  decide

lemma promiseAll_ok_forall {env : String → Option HttpResponse} :
    ∀ {l : List String} {results}, promiseAll env l = .ok results →
      ∀ i ∈ l, ∃ rl, fetchRecipesByIngredient (env i) = .ok rl := by
  intro l
  induction l with
  | nil => intro results _ i hi; simp at hi
  | cons a rest ih =>
    intro results h i hi
    rw [promiseAll] at h
    cases hfa : fetchRecipesByIngredient (env a) with
    | error e => rw [hfa] at h; cases h
    | ok la =>
      rw [hfa] at h
      cases hpr : promiseAll env rest with
      | error e => rw [hpr] at h; cases h
      | ok ls =>
        rcases List.mem_cons.mp hi with rfl | hi2
        · exact ⟨la, hfa⟩
        · exact ih hpr i hi2

lemma searchRecipes_ok_eval (env : String → Option HttpResponse)
    (rand : Nat → ℚ) (st : SearchState) (hne : ¬st.selectedIngredients = [])
    {results} (hok : promiseAll env st.selectedIngredients = .ok results) :
    searchRecipes env rand st =
      { st with
        isLoading := false, error := none,
        allRecipes := (deduplicateRecipes results.flatten).map fun r =>
          { raw := r,
            matchingIngredients :=
              getMatchingIngredients st.selectedIngredients },
        filteredRecipes :=
          applyFilters
            ((deduplicateRecipes results.flatten).map fun r =>
              { raw := r,
                matchingIngredients :=
                  getMatchingIngredients st.selectedIngredients })
            st.currentFilter rand } := by
  rw [searchRecipes, if_neg hne]
  dsimp only
  rw [hok]

lemma searchRecipes_error_eval (env : String → Option HttpResponse)
    (rand : Nat → ℚ) (st : SearchState) (hne : ¬st.selectedIngredients = [])
    {e} (herr : promiseAll env st.selectedIngredients = .error e) :
    searchRecipes env rand st =
      { st with
        isLoading := false,
        error := some "Failed to search recipes. Please try again." } := by
  rw [searchRecipes, if_neg hne]
  dsimp only
  rw [herr]

/-- Claim C1: with a non-empty ingredient set, if any one per-ingredient fetch
fails then the whole `Promise.all` rejects, `searchRecipes` lands in the
error state, and neither `allRecipes` nor `filteredRecipes` is replaced - no
partial merge of the fetches that succeeded is ever stored. -/
theorem search_allOrNothing (env : String → Option HttpResponse)
    (rand : Nat → ℚ) (st : SearchState) (hne : st.selectedIngredients ≠ [])
    (i : String) (hi : i ∈ st.selectedIngredients) (e : FetchError)
    (he : fetchRecipesByIngredient (env i) = .error e) :
    (∃ msg, (searchRecipes env rand st).error = some msg) ∧
    (searchRecipes env rand st).allRecipes = st.allRecipes ∧
    (searchRecipes env rand st).filteredRecipes = st.filteredRecipes ∧
    ∃ e2, promiseAll env st.selectedIngredients = .error e2 := by
  cases hpa : promiseAll env st.selectedIngredients with
  | ok results =>
    obtain ⟨rl, hrl⟩ := promiseAll_ok_forall hpa i hi
    rw [he] at hrl
    cases hrl
  | error e2 =>
    rw [searchRecipes_error_eval env rand st hne hpa]
    exact ⟨⟨_, rfl⟩, rfl, rfl, e2, rfl⟩

/-- Witness for `search_allOrNothing` at a concrete input: the "rice" fetch
suffers a transport failure while the "chicken" fetch succeeds. -/
theorem search_allOrNothing_witness :
    (searchRecipes failEnv zeroRand demoState).allRecipes = [] ∧
    ∃ msg, (searchRecipes failEnv zeroRand demoState).error = some msg := by
  have h := search_allOrNothing failEnv zeroRand demoState (by decide) "rice"
    (by decide) FetchError.transport rfl
  exact ⟨h.2.1, h.1⟩

lemma dedupeAux_not_seen :
    ∀ {rs : List Recipe} {seen : List String} {r : Recipe},
      r ∈ dedupeAux seen rs → r.idMeal ∉ seen := by
  intro rs
  induction rs with
  | nil => intro seen r h; simp [dedupeAux] at h
  | cons a rest ih =>
    intro seen r h
    by_cases ha : a.idMeal ∈ seen
    · rw [dedupeAux, if_pos ha] at h
      exact ih h
    · rw [dedupeAux, if_neg ha] at h
      rcases List.mem_cons.mp h with rfl | h2
      · exact ha
      · have h3 := ih h2
        intro hr
        exact h3 (List.mem_cons_of_mem _ hr)

lemma dedupeAux_nodup (rs : List Recipe) :
    ∀ seen, ((dedupeAux seen rs).map fun r => r.idMeal).Nodup := by
  induction rs with
  | nil => intro seen; simp [dedupeAux]
  | cons a rest ih =>
    intro seen
    by_cases ha : a.idMeal ∈ seen
    · rw [dedupeAux, if_pos ha]
      exact ih seen
    · rw [dedupeAux, if_neg ha]
      rw [List.map_cons, List.nodup_cons]
      refine ⟨?_, ih _⟩
      intro hmem
      rcases List.mem_map.mp hmem with ⟨r, hr, hid⟩
      exact dedupeAux_not_seen hr (hid ▸ List.mem_cons_self _ _)

lemma dedupeAux_find :
    ∀ {rs : List Recipe} {seen : List String} {r : Recipe},
      r ∈ dedupeAux seen rs →
        rs.find? (fun x => x.idMeal == r.idMeal) = some r := by
  intro rs
  induction rs with
  | nil => intro seen r h; simp [dedupeAux] at h
  | cons a rest ih =>
    intro seen r h
    by_cases ha : a.idMeal ∈ seen
    · rw [dedupeAux, if_pos ha] at h
      have hne : a.idMeal ≠ r.idMeal := by
        intro he
        exact dedupeAux_not_seen h (he ▸ ha)
      rw [List.find?_cons_of_neg _ (by simpa using hne), ih h]
    · rw [dedupeAux, if_neg ha] at h
      rcases List.mem_cons.mp h with rfl | h2
      · rw [List.find?_cons_of_pos _ (by simp)]
      · have hne : a.idMeal ≠ r.idMeal := by
          intro he
          exact dedupeAux_not_seen h2 (he ▸ List.mem_cons_self _ _)
        rw [List.find?_cons_of_neg _ (by simpa using hne), ih h2]

lemma dedupeAux_covers :
    ∀ {rs : List Recipe} {seen : List String} {r : Recipe},
      r ∈ rs → r.idMeal ∉ seen →
        ∃ a ∈ dedupeAux seen rs, a.idMeal = r.idMeal := by
  intro rs
  induction rs with
  | nil => intro seen r h; simp at h
  | cons b rest ih =>
    intro seen r h hs
    by_cases hb : b.idMeal ∈ seen
    · rw [dedupeAux, if_pos hb]
      rcases List.mem_cons.mp h with rfl | h2
      · exact absurd hb hs
      · exact ih h2 hs
    · rw [dedupeAux, if_neg hb]
      rcases List.mem_cons.mp h with rfl | h2
      · exact ⟨r, List.mem_cons_self _ _, rfl⟩
      · by_cases hid : r.idMeal = b.idMeal
        · exact ⟨b, List.mem_cons_self _ _, hid.symm⟩
        · obtain ⟨a, ha, haid⟩ := ih h2 (by
            intro hmem
            rcases List.mem_cons.mp hmem with h3 | h3
            · exact hid h3
            · exact hs h3)
          exact ⟨a, List.mem_cons_of_mem _ ha, haid⟩

/-- Claim C2: on a successful search, the stored result sequence carries each
recipe identifier exactly once (no duplicates, and every identifier from the
fetched lists survives), and the surviving record under each identifier is its
first occurrence in the concatenation of the per-ingredient result lists taken
in the ingredient set's enumeration order. -/
theorem search_dedup_firstSeen (env : String → Option HttpResponse)
    (rand : Nat → ℚ) (st : SearchState) (hne : ¬st.selectedIngredients = [])
    (results : List (List Recipe))
    (hok : promiseAll env st.selectedIngredients = .ok results) :
    (((searchRecipes env rand st).allRecipes.map fun a =>
      a.raw.idMeal).Nodup) ∧
    (∀ a ∈ (searchRecipes env rand st).allRecipes,
      results.flatten.find? (fun r => r.idMeal == a.raw.idMeal) =
        some a.raw) ∧
    (∀ r ∈ results.flatten, ∃ a ∈ (searchRecipes env rand st).allRecipes,
      a.raw.idMeal = r.idMeal) := by
  rw [searchRecipes_ok_eval env rand st hne hok]
  dsimp only
  refine ⟨?_, ?_, ?_⟩
  · rw [List.map_map]
    exact dedupeAux_nodup results.flatten []
  · intro a ha
    rcases List.mem_map.mp ha with ⟨u, hu, rfl⟩
    exact dedupeAux_find hu
  · intro r hr
    obtain ⟨a, ha, haid⟩ :=
      @dedupeAux_covers _ [] _ hr (by simp)
    exact ⟨⟨a, getMatchingIngredients st.selectedIngredients⟩,
      List.mem_map_of_mem _ ha, haid⟩

/-- Witness for `search_dedup_firstSeen` at a concrete input: ingredients
`["chicken", "rice"]` where "chicken" returns recipe A and "rice" returns
recipes A and B. -/
theorem search_dedup_firstSeen_witness :
    ((searchRecipes okEnv zeroRand demoState).allRecipes.map fun a =>
      a.raw.idMeal).Nodup :=
  (search_dedup_firstSeen okEnv zeroRand demoState (by decide)
    [[chickenRecipe], [chickenRecipe, riceRecipe]] rfl).1

/-- Claim C3: for every recipe in a successful search result, the derived
`matchingIngredients` field is exactly the first `min(|ingredients|, 3)`
ingredients of the input ingredient set in its enumeration order (hence of
that length), independent of the recipe's contents. -/
theorem search_matchingIngredients (env : String → Option HttpResponse)
    (rand : Nat → ℚ) (st : SearchState) (hne : ¬st.selectedIngredients = [])
    (results : List (List Recipe))
    (hok : promiseAll env st.selectedIngredients = .ok results) :
    ∀ a ∈ (searchRecipes env rand st).allRecipes,
      a.matchingIngredients =
        st.selectedIngredients.take (min st.selectedIngredients.length 3) ∧
      a.matchingIngredients.length = min st.selectedIngredients.length 3 := by
  rw [searchRecipes_ok_eval env rand st hne hok]
  dsimp only
  intro a ha
  rcases List.mem_map.mp ha with ⟨u, _, rfl⟩
  refine ⟨rfl, ?_⟩
  dsimp only [getMatchingIngredients]
  rw [List.length_take]
  omega

/-- Witness for `search_matchingIngredients` at a concrete input. -/
theorem search_matchingIngredients_witness :
    (⟨chickenRecipe, ["chicken", "rice"]⟩ :
        AnnotatedRecipe).matchingIngredients =
      demoState.selectedIngredients.take
        (min demoState.selectedIngredients.length 3) := by
  have h := search_matchingIngredients okEnv zeroRand demoState (by decide)
    [[chickenRecipe], [chickenRecipe, riceRecipe]] rfl
    ⟨chickenRecipe, ["chicken", "rice"]⟩ (by decide)
  exact h.1

lemma pauseTimer_timeRemaining (s : TimerState) :
    (pauseTimer s).timeRemaining = s.timeRemaining := by
  rw [pauseTimer]
  cases s.interval <;> rfl

lemma pauseTimer_finishedCount (s : TimerState) :
    (pauseTimer s).finishedCount = s.finishedCount := by
  rw [pauseTimer]
  cases s.interval <;> rfl

lemma tickTimer_iterate (k : Nat) (s : TimerState)
    (hk : (k : Int) ≤ s.timeRemaining) :
    tickTimer^[k] s = { s with timeRemaining := s.timeRemaining - k } := by
  induction k generalizing s with
  | zero => simp
  | succ n ih =>
    have hpos : s.timeRemaining > 0 := by
      have : ((n + 1 : Nat) : Int) ≤ s.timeRemaining := hk
      push_cast at this
      omega
    rw [Function.iterate_succ_apply,
      show tickTimer s = { s with timeRemaining := s.timeRemaining - 1 } from
        by rw [tickTimer, if_pos hpos],
      ih]
    · congr 1
      push_cast
      ring
    · dsimp only
      have : ((n + 1 : Nat) : Int) ≤ s.timeRemaining := hk
      push_cast at this ⊢
      omega

lemma tickTimer_nonneg (s : TimerState) (h : 0 ≤ s.timeRemaining) :
    0 ≤ (tickTimer s).timeRemaining := by
  rw [tickTimer]
  by_cases hpos : s.timeRemaining > 0
  · rw [if_pos hpos]
    dsimp only
    omega
  · rw [if_neg hpos]
    dsimp only
    rw [pauseTimer_timeRemaining]
    exact h

lemma startTimer_of_pos (s : TimerState) (h : ¬s.timeRemaining ≤ 0) :
    startTimer s =
      { s with
        isRunning := true, interval := some s.nextId,
        active := s.nextId :: s.active, nextId := s.nextId + 1 } := by
  rw [startTimer, if_neg h]

/-- Claim C5, counterexample: after setDuration(90), start() and exactly 90
ticks the remaining time is 0, but the machine has NOT expired - it is still
running and the "finished" notification has not fired; the expiry only
happens on the 91st tick. -/
theorem timer_not_expired_at_tick_90 :
    (tickTimer^[90] (startTimer (setTimer 90 timerInit))).isRunning = true ∧
    (tickTimer^[90] (startTimer (setTimer 90 timerInit))).finishedCount = 0 ∧
    (tickTimer^[90] (startTimer (setTimer 90 timerInit))).timeRemaining = 0 := by
  rw [tickTimer_iterate 90 _ (by norm_num [startTimer, setTimer, timerInit])]
  norm_num [startTimer, setTimer, timerInit]

/-- Claim C5 as amended: starting from any state, setDuration(90) then start()
then 91 ticks: through the first 90 ticks the remaining time falls from 90 to
exactly 0 (reaching 0 at tick 90) while the timer keeps running and no
"finished" notification fires; the 91st tick stops the timer with remaining
still 0 and fires the "finished" notification exactly once; and the remaining
time is never negative at any point of the sequence. -/
theorem timer_expiry_scenario (s : TimerState) :
    (∀ k, k ≤ 90 →
      (tickTimer^[k] (startTimer (setTimer 90 s))).timeRemaining =
          90 - (k : Int) ∧
      (tickTimer^[k] (startTimer (setTimer 90 s))).finishedCount =
          s.finishedCount ∧
      (tickTimer^[k] (startTimer (setTimer 90 s))).isRunning = true) ∧
    (tickTimer^[91] (startTimer (setTimer 90 s))).timeRemaining = 0 ∧
    (tickTimer^[91] (startTimer (setTimer 90 s))).isRunning = false ∧
    (tickTimer^[91] (startTimer (setTimer 90 s))).finishedCount =
        s.finishedCount + 1 ∧
    (∀ k, 0 ≤ (tickTimer^[k] (startTimer (setTimer 90 s))).timeRemaining) := by
  have hstart : startTimer (setTimer 90 s) =
      { s with
        timeRemaining := 90, isRunning := true,
        interval := some s.nextId, active := s.nextId :: s.active,
        nextId := s.nextId + 1 } := by
    rw [setTimer, startTimer_of_pos _ (by dsimp only; omega)]
  have hiter : ∀ k, k ≤ 90 →
      tickTimer^[k] (startTimer (setTimer 90 s)) =
        { s with
          timeRemaining := 90 - (k : Int), isRunning := true,
          interval := some s.nextId, active := s.nextId :: s.active,
          nextId := s.nextId + 1 } := by
    intro k hk
    rw [hstart, tickTimer_iterate k _ (by dsimp only; omega)]
  refine ⟨fun k hk => by rw [hiter k hk]; exact ⟨rfl, rfl, rfl⟩, ?_, ?_, ?_, ?_⟩
  · rw [show (91 : Nat) = 90 + 1 from rfl, Function.iterate_succ_apply',
      hiter 90 le_rfl]
    norm_num [tickTimer, pauseTimer]
  · rw [show (91 : Nat) = 90 + 1 from rfl, Function.iterate_succ_apply',
      hiter 90 le_rfl]
    norm_num [tickTimer, pauseTimer]
  · rw [show (91 : Nat) = 90 + 1 from rfl, Function.iterate_succ_apply',
      hiter 90 le_rfl]
    norm_num [tickTimer, pauseTimer]
  · intro k
    induction k with
    | zero =>
      rw [Function.iterate_zero_apply, hstart]
      norm_num
    | succ n ihn =>
      rw [Function.iterate_succ_apply']
      exact tickTimer_nonneg _ ihn

/-- Witness for `timer_expiry_scenario` at the initial state. -/
theorem timer_expiry_scenario_witness :
    (tickTimer^[90] (startTimer (setTimer 90 timerInit))).timeRemaining = 0 ∧
    (tickTimer^[91] (startTimer (setTimer 90 timerInit))).finishedCount = 1 := by
  have h := timer_expiry_scenario timerInit
  refine ⟨?_, ?_⟩
  · have h90 := (h.1 90 le_rfl).1
    rw [h90]
    norm_num
  · have h91 := h.2.2.2.1
    rw [h91]
    rfl

lemma toLowerChar_idem (c : Nat) :
    toLowerChar (toLowerChar c) = toLowerChar c := by
  unfold toLowerChar
  split_ifs <;> omega

lemma isJsSpace_toLowerChar (c : Nat) :
    isJsSpace (toLowerChar c) = isJsSpace c := by
  unfold toLowerChar isJsSpace
  split_ifs with h
  · rw [decide_eq_decide]
    omega
  · rfl

lemma jsToLowerCase_idem (s : JSString) :
    jsToLowerCase (jsToLowerCase s) = jsToLowerCase s := by
  simp only [jsToLowerCase, List.map_map]
  exact List.map_congr_left fun a _ => toLowerChar_idem a

lemma dropWhile_dropWhile {α : Type} (p : α → Bool) (l : List α) :
    (l.dropWhile p).dropWhile p = l.dropWhile p := by
  rw [List.dropWhile_eq_self_iff]
  intro hl
  exact List.dropWhile_get_zero_not p l hl

lemma dropWhile_cons_false {α : Type} {p : α → Bool} :
    ∀ {l : List α} {a : α} {t : List α},
      List.dropWhile p l = a :: t → p a = false := by
  intro l
  induction l with
  | nil => intro a t h; simp at h
  | cons b bt ih =>
    intro a t h
    rw [List.dropWhile_cons] at h
    by_cases hb : p b = true
    · rw [if_pos hb] at h
      exact ih h
    · rw [if_neg hb] at h
      cases h
      simpa using hb

lemma dropWhile_map_toLowerChar (l : JSString) :
    List.map toLowerChar (l.dropWhile isJsSpace) =
      (List.map toLowerChar l).dropWhile isJsSpace := by
  rw [List.dropWhile_map,
    show isJsSpace ∘ toLowerChar = isJsSpace from
      funext isJsSpace_toLowerChar]

lemma jsToLowerCase_jsTrim (s : JSString) :
    jsToLowerCase (jsTrim s) = jsTrim (jsToLowerCase s) := by
  rw [jsTrim, jsTrim, jsToLowerCase, jsToLowerCase, List.map_reverse,
    dropWhile_map_toLowerChar, List.map_reverse, dropWhile_map_toLowerChar]

lemma jsTrim_trimmed_left (s : JSString) :
    (jsTrim s).dropWhile isJsSpace = jsTrim s := by
  rw [jsTrim]
  cases hcons : s.dropWhile isJsSpace with
  | nil => simp
  | cons a t =>
    have hpa : isJsSpace a = false := dropWhile_cons_false hcons
    rw [List.reverse_cons, List.dropWhile_append]
    by_cases hemp : (t.reverse.dropWhile isJsSpace).isEmpty = true
    · rw [if_pos hemp]
      simp [List.dropWhile_cons, hpa]
    · rw [if_neg hemp, List.reverse_append]
      simp [List.dropWhile_cons, hpa]

lemma jsTrim_idem (s : JSString) : jsTrim (jsTrim s) = jsTrim s := by
  conv_lhs => rw [jsTrim, jsTrim_trimmed_left]
  rw [jsTrim, List.reverse_reverse, dropWhile_dropWhile]

lemma normalizeIngredient_idem (s : JSString) :
    normalizeIngredient (normalizeIngredient s) = normalizeIngredient s := by
  rw [normalizeIngredient, normalizeIngredient, jsToLowerCase_jsTrim,
    jsToLowerCase_idem, jsTrim_idem]

/-- Claim C9: the operation `addIngredient` preserves the IngredientSet invariant - the
selected-ingredient set holds pairwise-distinct, already-normalized values, so
its normalized values are duplicate-free - and when the normalized
(lowercased, trimmed) input is empty or already a member, the call is a
silent no-op leaving the set exactly unchanged (no error is raised: the
function is total). -/
theorem addIngredient_no_duplicates (sel : List JSString) (x : JSString)
    (hinv : IngredientSetInv sel) :
    IngredientSetInv (addIngredient sel x) ∧
    ((addIngredient sel x).map normalizeIngredient).Nodup ∧
    (normalizeIngredient x = [] ∨ normalizeIngredient x ∈ sel →
      addIngredient sel x = sel) := by
  obtain ⟨hnd, hfix⟩ := hinv
  have hmap : ∀ l : List JSString, (∀ m ∈ l, normalizeIngredient m = m) →
      l.map normalizeIngredient = l := fun l h =>
    (List.map_congr_left h).trans l.map_id
  by_cases hc : normalizeIngredient x ≠ [] ∧ normalizeIngredient x ∉ sel
  · rw [addIngredient, if_pos hc]
    have hmem : ∀ m ∈ sel ++ [normalizeIngredient x],
        normalizeIngredient m = m := by
      intro m hm
      rcases List.mem_append.mp hm with hm2 | hm2
      · exact hfix m hm2
      · rw [List.mem_singleton.mp hm2]
        exact normalizeIngredient_idem x
    have hnd2 : (sel ++ [normalizeIngredient x]).Nodup := by
      rw [List.nodup_append]
      refine ⟨hnd, List.nodup_singleton _, ?_⟩
      intro a ha hb
      rw [List.mem_singleton.mp hb] at ha
      exact hc.2 ha
    refine ⟨⟨hnd2, hmem⟩, ?_, ?_⟩
    · rw [hmap _ hmem]
      exact hnd2
    · intro h
      rcases h with h | h
      · exact absurd h hc.1
      · exact absurd h hc.2
  · rw [addIngredient, if_neg hc]
    exact ⟨⟨hnd, hfix⟩, by rw [hmap sel hfix]; exact hnd, fun _ => rfl⟩

/-- Witness for `addIngredient_no_duplicates`: adding the token `" Chicken "`
to the empty set. -/
theorem addIngredient_no_duplicates_witness :
    IngredientSetInv (addIngredient [] sampleToken) :=
  (addIngredient_no_duplicates [] sampleToken
    ⟨List.nodup_nil, by simp⟩).1

end RecipeFinder
